import Mathlib

/-!
Shallow embedding of the rosetta (hypotrochoid) curve generator of
`src/rosetta.rs` and of the path serializer `write_path` of
`src/renderer.rs`.

Modelling choices:
* `f64` values are modelled as exact rationals `ℚ`.  All the arithmetic of
  the generator (`+`, `-`, `*`, `/`) is exact on the inputs that matter, so
  the rational model reproduces the code's formulas exactly.
* The transcendental functions `f64::cos` / `f64::sin` are abstracted as
  explicit function parameters `cosF sinF : ℚ → ℚ`; theorems constrain or
  instantiate them as needed.  This keeps every definition computable.
* Division in `ℚ` is total with `x / 0 = 0`.  The one place where the
  source can divide zero by zero (`steps = 0`, where Rust computes
  `0.0 / 0.0 = NaN`) is flagged at the corresponding theorem.
* The bounding-box accumulators start from `f64::MIN` / `f64::MAX` exactly
  as in the source; those constants are modelled by their exact rational
  values.
-/

/-- A 2D coordinate in cartesian space (struct `Coordinate` of
`src/rosetta.rs`). -/
structure Coordinate where
  x : ℚ
  y : ℚ
deriving DecidableEq, Repr

/-- The mathematical description of a rosetta (struct `Hypotrochoid` of
`src/rosetta.rs`).  The Rust `usize` field `steps` is modelled as `ℕ`. -/
structure Hypotrochoid where
  outer_radius : ℚ
  inner_radius : ℚ
  pen_offset : ℚ
  steps : ℕ
deriving DecidableEq, Repr

/-- Exact rational value of the Rust constant `std::f64::consts::PI`
(the `f64` closest to π). -/
def PI : ℚ := 884279719003555 / 2 ^ 48

/-- Exact rational value of `f64::MAX`, the seed of the running minimum. -/
def F64_MAX : ℚ := 2 ^ 1024 - 2 ^ 971

/-- Exact rational value of `f64::MIN`, the seed of the running maximum. -/
def F64_MIN : ℚ := -(2 ^ 1024 - 2 ^ 971)

/-- The hard-coded revolution count `REVOLUTIONS` of `compute_points`. -/
def REVOLUTIONS : ℚ := 16

/-- Method `Hypotrochoid::generate_point`: one point of the hypotrochoid
curve at angle `theta`, using the standard parametric equation. -/
def generate_point (h : Hypotrochoid) (cosF sinF : ℚ → ℚ) (theta : ℚ) :
    Coordinate :=
  let r_diff := h.outer_radius - h.inner_radius
  let ratio := r_diff / h.inner_radius
  { x := r_diff * cosF theta + h.pen_offset * cosF (ratio * theta),
    y := r_diff * sinF theta - h.pen_offset * sinF (ratio * theta) }

/-- The angle computed for loop index `j` inside `compute_points`:
`2.0 * PI * (j as f64) / (self.steps as f64) * REVOLUTIONS`. -/
def theta (h : Hypotrochoid) (j : ℕ) : ℚ :=
  2 * PI * (j : ℚ) / (h.steps : ℚ) * REVOLUTIONS

/-- The raw (pre-recentering) points pushed by the loop
`for j in 0..=self.steps` of `compute_points`, in loop order. -/
def rawPoints (h : Hypotrochoid) (cosF sinF : ℚ → ℚ) : List Coordinate :=
  (List.range (h.steps + 1)).map (fun j => generate_point h cosF sinF (theta h j))

/-- Running maximum of a list of values, seeded with `f64::MIN` exactly as
the accumulators `max_x` / `max_y` of `compute_points` are. -/
def foldMax (l : List ℚ) : ℚ := l.foldl max F64_MIN

/-- Running minimum of a list of values, seeded with `f64::MAX` exactly as
the accumulators `min_x` / `min_y` of `compute_points` are. -/
def foldMin (l : List ℚ) : ℚ := l.foldl min F64_MAX

/-- The center offset `offset_x = (max_x + min_x) / 2.0` computed by
`compute_points` from the bounding box of the raw points. -/
def offsetX (h : Hypotrochoid) (cosF sinF : ℚ → ℚ) : ℚ :=
  (foldMax ((rawPoints h cosF sinF).map (fun p => p.x)) +
    foldMin ((rawPoints h cosF sinF).map (fun p => p.x))) / 2

/-- The center offset `offset_y = (max_y + min_y) / 2.0` computed by
`compute_points` from the bounding box of the raw points. -/
def offsetY (h : Hypotrochoid) (cosF sinF : ℚ → ℚ) : ℚ :=
  (foldMax ((rawPoints h cosF sinF).map (fun p => p.y)) +
    foldMin ((rawPoints h cosF sinF).map (fun p => p.y))) / 2

/-- Method `Hypotrochoid::compute_points`: generates the raw points, then
recenters every point by subtracting the bounding-box center offset.
The source computes the extents in the generation loop; folding over the
generated list is the same exact computation (the spec itself notes the
one-pass form is only an optimization). -/
def compute_points (h : Hypotrochoid) (cosF sinF : ℚ → ℚ) : List Coordinate :=
  (rawPoints h cosF sinF).map
    (fun p => { x := p.x - offsetX h cosF sinF, y := p.y - offsetY h cosF sinF })

/-- Output tokens of the serializer `write_path` of `src/renderer.rs`.
The first `write!` emits a quote mark then the move-to command, each loop
iteration emits one line-to command, and the final `write!` emits the
closing quote mark. -/
inductive PathCmd where
  | quoteMark : PathCmd
  | moveTo : Coordinate → PathCmd
  | lineTo : Coordinate → PathCmd
deriving DecidableEq, Repr

/-- Function `write_path` of `src/renderer.rs`, modelled as the list of
output tokens it writes: nothing when the slice is empty (`points.first()`
is `None`); otherwise the opening quote and a move-to for the first point,
one line-to per remaining point (`points.iter().skip(1)`), then the
closing quote. -/
def write_path (points : List Coordinate) : List PathCmd :=
  match points.head? with
  | none => []
  | some first_point =>
      PathCmd.quoteMark :: PathCmd.moveTo first_point ::
        ((points.drop 1).map PathCmd.lineTo ++ [PathCmd.quoteMark])

/-- Payload of a move-to command, `none` on every other token. -/
def moveArg : PathCmd → Option Coordinate
  | PathCmd.moveTo p => some p
  | _ => none

/-- Payload of a line-to command, `none` on every other token. -/
def lineArg : PathCmd → Option Coordinate
  | PathCmd.lineTo p => some p
  | _ => none

/-- Genuine maximum of a list of rationals (0 on the empty list); used to
state what "max of the returned sequence" means in the spec. -/
def listSup : List ℚ → ℚ
  | [] => 0
  | a :: t => t.foldl max a

/-- Genuine minimum of a list of rationals (0 on the empty list); used to
state what "min of the returned sequence" means in the spec. -/
def listInf : List ℚ → ℚ
  | [] => 0
  | a :: t => t.foldl min a

/-- Subtracting a constant commutes with a running maximum. -/
theorem foldl_max_map_sub (l : List ℚ) (a c : ℚ) :
    (l.map (fun v => v - c)).foldl max (a - c) = l.foldl max a - c := by
  induction l generalizing a with
  | nil => rfl
  | cons v t ih =>
      simp only [List.map_cons, List.foldl_cons, max_sub_sub_right]
      exact ih (max a v)

/-- Subtracting a constant commutes with a running minimum. -/
theorem foldl_min_map_sub (l : List ℚ) (a c : ℚ) :
    (l.map (fun v => v - c)).foldl min (a - c) = l.foldl min a - c := by
  induction l generalizing a with
  | nil => rfl
  | cons v t ih =>
      simp only [List.map_cons, List.foldl_cons, min_sub_sub_right]
      exact ih (min a v)

/-- Unfolding of the `x` component of `generate_point`. -/
theorem generate_point_x (h : Hypotrochoid) (cosF sinF : ℚ → ℚ) (t : ℚ) :
    (generate_point h cosF sinF t).x =
      (h.outer_radius - h.inner_radius) * cosF t +
        h.pen_offset *
          cosF (((h.outer_radius - h.inner_radius) / h.inner_radius) * t) := rfl

/-- Unfolding of the `y` component of `generate_point`. -/
theorem generate_point_y (h : Hypotrochoid) (cosF sinF : ℚ → ℚ) (t : ℚ) :
    (generate_point h cosF sinF t).y =
      (h.outer_radius - h.inner_radius) * sinF t -
        h.pen_offset *
          sinF (((h.outer_radius - h.inner_radius) / h.inner_radius) * t) := rfl

/-- Bound on a hypotrochoid component: with both trig values in `[-1, 1]`,
the component is bounded by the sum of the two amplitudes. -/
theorem abs_combo_le (a b c d bound : ℚ) (ha : 0 ≤ a) (hc : |c| ≤ 1)
    (hd : |d| ≤ 1) (hb : a + |b| ≤ bound) : |a * c + b * d| ≤ bound := by
  calc |a * c + b * d| ≤ |a * c| + |b * d| := abs_add _ _
    _ = |a| * |c| + |b| * |d| := by rw [abs_mul, abs_mul]
    _ ≤ |a| * 1 + |b| * 1 :=
        add_le_add (mul_le_mul_of_nonneg_left hc (abs_nonneg a))
          (mul_le_mul_of_nonneg_left hd (abs_nonneg b))
    _ = a + |b| := by rw [mul_one, mul_one, abs_of_nonneg ha]
    _ ≤ bound := hb

/-- Core of the recentering invariant on one axis: when the head value is
inside the sentinel range, the sentinel-seeded folds compute the true
extrema, and subtracting their midpoint makes the recentered extrema sum
to zero. -/
theorem recentered_sum_zero (x0 c : ℚ) (t : List ℚ)
    (hlo : F64_MIN ≤ x0) (hhi : x0 ≤ F64_MAX)
    (hc : c = (foldMax (x0 :: t) + foldMin (x0 :: t)) / 2) :
    (listSup ((x0 :: t).map (fun v => v - c)) +
      listInf ((x0 :: t).map (fun v => v - c))) / 2 = 0 := by
  have hmax : foldMax (x0 :: t) = t.foldl max x0 := by
    simp only [foldMax, List.foldl_cons]
    rw [max_eq_right hlo]
  have hmin : foldMin (x0 :: t) = t.foldl min x0 := by
    simp only [foldMin, List.foldl_cons]
    rw [min_eq_right hhi]
  have hsup : listSup ((x0 :: t).map (fun v => v - c)) = t.foldl max x0 - c := by
    simp only [List.map_cons, listSup]
    exact foldl_max_map_sub t x0 c
  have hinf : listInf ((x0 :: t).map (fun v => v - c)) = t.foldl min x0 - c := by
    simp only [List.map_cons, listInf]
    exact foldl_min_map_sub t x0 c
  rw [hsup, hinf, hc, hmax, hmin]
  ring

/-- C2.  Recentering invariant: for every valid spec (positive inner
radius, outer radius above it, at least one step), trig oracles bounded by
1 in absolute value, and amplitudes within the `f64` sentinel range, the
sequence returned by `compute_points` satisfies
`(max(x) + min(x)) / 2 = 0` and `(max(y) + min(y)) / 2 = 0` exactly (the
exact-arithmetic form of "within floating-point tolerance"): its
axis-aligned bounding box is centered at the origin. -/
theorem claim_C2_recentering (h : Hypotrochoid) (cosF sinF : ℚ → ℚ)
    (hinner : 0 < h.inner_radius) (houter : h.inner_radius < h.outer_radius)
    (_hsteps : 1 ≤ h.steps)
    (hcos : ∀ t, |cosF t| ≤ 1) (hsin : ∀ t, |sinF t| ≤ 1)
    (hmag : h.outer_radius + |h.pen_offset| ≤ F64_MAX) :
    (listSup ((compute_points h cosF sinF).map (fun p => p.x)) +
      listInf ((compute_points h cosF sinF).map (fun p => p.x))) / 2 = 0 ∧
    (listSup ((compute_points h cosF sinF).map (fun p => p.y)) +
      listInf ((compute_points h cosF sinF).map (fun p => p.y))) / 2 = 0 := by
  have hdec : rawPoints h cosF sinF =
      generate_point h cosF sinF (theta h 0) ::
        ((List.range h.steps).map
          (fun j => generate_point h cosF sinF (theta h (j + 1)))) := by
    simp only [rawPoints, List.range_succ_eq_map, List.map_cons, List.map_map]
    rfl
  have hamp : h.outer_radius - h.inner_radius + |h.pen_offset| ≤ F64_MAX := by
    linarith
  have hbx : |(generate_point h cosF sinF (theta h 0)).x| ≤ F64_MAX := by
    rw [generate_point_x]
    exact abs_combo_le _ _ _ _ _ (by linarith) (hcos _) (hcos _) hamp
  have hby : |(generate_point h cosF sinF (theta h 0)).y| ≤ F64_MAX := by
    rw [generate_point_y, sub_eq_add_neg, ← mul_neg]
    refine abs_combo_le _ _ _ _ _ (by linarith) (hsin _) ?_ hamp
    rw [abs_neg]
    exact hsin _
  have hF : F64_MIN = -F64_MAX := rfl
  have hxlist : (compute_points h cosF sinF).map (fun p => p.x) =
      ((rawPoints h cosF sinF).map (fun p => p.x)).map
        (fun v => v - offsetX h cosF sinF) := by
    simp only [compute_points, List.map_map]
    rfl
  have hylist : (compute_points h cosF sinF).map (fun p => p.y) =
      ((rawPoints h cosF sinF).map (fun p => p.y)).map
        (fun v => v - offsetY h cosF sinF) := by
    simp only [compute_points, List.map_map]
    rfl
  constructor
  · rw [hxlist, hdec, List.map_cons]
    refine recentered_sum_zero _ _ _ ?_ ?_ ?_
    · rw [hF]
      exact (abs_le.mp hbx).1
    · exact (abs_le.mp hbx).2
    · rw [offsetX, hdec, List.map_cons]
  · rw [hylist, hdec, List.map_cons]
    refine recentered_sum_zero _ _ _ ?_ ?_ ?_
    · rw [hF]
      exact (abs_le.mp hby).1
    · exact (abs_le.mp hby).2
    · rw [offsetY, hdec, List.map_cons]

/-- Witness for C2 at a concrete valid spec with constant-zero trig
oracles. -/
theorem claim_C2_witness :
    (listSup ((compute_points ⟨150, 52.5, 97.5, 1⟩ (fun _ => 0)
        (fun _ => 0)).map (fun p => p.x)) +
      listInf ((compute_points ⟨150, 52.5, 97.5, 1⟩ (fun _ => 0)
        (fun _ => 0)).map (fun p => p.x))) / 2 = 0 ∧
    (listSup ((compute_points ⟨150, 52.5, 97.5, 1⟩ (fun _ => 0)
        (fun _ => 0)).map (fun p => p.y)) +
      listInf ((compute_points ⟨150, 52.5, 97.5, 1⟩ (fun _ => 0)
        (fun _ => 0)).map (fun p => p.y))) / 2 = 0 :=
  claim_C2_recentering ⟨150, 52.5, 97.5, 1⟩ (fun _ => 0) (fun _ => 0)
    (by norm_num) (by norm_num) (by norm_num)
    (fun t => by norm_num) (fun t => by norm_num)
    (by
      show (150 : ℚ) + |(97.5 : ℚ)| ≤ F64_MAX
      rw [abs_of_nonneg (by norm_num : (0 : ℚ) ≤ 97.5)]
      norm_num [F64_MAX])

/-- C3.  Cardinality: for every spec with `steps = N`, `compute_points`
returns a sequence of exactly `N + 1` points. -/
theorem claim_C3_cardinality (h : Hypotrochoid) (cosF sinF : ℚ → ℚ) :
    (compute_points h cosF sinF).length = h.steps + 1 := by
  simp [compute_points, rawPoints]

/-- C10.  `write_path` on an empty point sequence writes no output at all:
no move or line command and no quote mark (the source performs no write
and returns `Ok(())`; the model is a total function, so success is
inherent). -/
theorem claim_C10_empty : write_path [] = [] := rfl

/-- C8.  Determinism: two invocations of `compute_points` with identical
spec values (same `outer_radius`, `inner_radius`, `pen_offset`, `steps`)
return identical sequences. -/
theorem claim_C8_determinism (h₁ h₂ : Hypotrochoid) (cosF sinF : ℚ → ℚ)
    (ho : h₁.outer_radius = h₂.outer_radius)
    (hi : h₁.inner_radius = h₂.inner_radius)
    (hp : h₁.pen_offset = h₂.pen_offset)
    (hs : h₁.steps = h₂.steps) :
    compute_points h₁ cosF sinF = compute_points h₂ cosF sinF := by
  have : h₁ = h₂ := by
    cases h₁
    cases h₂
    simp_all
  rw [this]

/-- C7.  Serializer shape: on a non-empty sequence, `write_path` emits
exactly one move-to command, carrying the first point, and exactly one
line-to command per subsequent point, in the sequence's order with no
reordering or deduplication; on a one-point sequence it emits only the
move (between the two quote marks), no line-to at all. -/
theorem claim_C7_serializer (p : Coordinate) (rest : List Coordinate) :
    (write_path (p :: rest)).filterMap moveArg = [p] ∧
    (write_path (p :: rest)).filterMap lineArg = rest ∧
    write_path [p] = [PathCmd.quoteMark, PathCmd.moveTo p, PathCmd.quoteMark] := by
  refine ⟨?_, ?_, rfl⟩
  · simp [write_path, moveArg, List.filterMap_append, List.filterMap_map,
      Function.comp, List.filterMap_eq_nil_iff]
  · have hc : lineArg ∘ PathCmd.lineTo = some := rfl
    simp [write_path, lineArg, List.filterMap_append, List.filterMap_map, hc,
      List.filterMap_some]

/-- C1.  Raw point formula: for every spec and every `j ≤ steps`, the
`j`-th raw (pre-recentering) point of `compute_points` comes from the
angle `theta = 2π · (j / steps) · REVOLUTIONS` and equals
`(r_diff·cos θ + pen_offset·cos (ratio·θ),
  r_diff·sin θ − pen_offset·sin (ratio·θ))` with
`r_diff = outer_radius − inner_radius` and `ratio = r_diff / inner_radius`;
the minus sign on the `y` pen term is exactly the source's. -/
theorem claim_C1_raw_point (h : Hypotrochoid) (cosF sinF : ℚ → ℚ) (j : ℕ)
    (hj : j ≤ h.steps) :
    (rawPoints h cosF sinF)[j]? =
      some (Coordinate.mk
        ((h.outer_radius - h.inner_radius) *
            cosF (2 * PI * ((j : ℚ) / (h.steps : ℚ)) * REVOLUTIONS) +
          h.pen_offset *
            cosF (((h.outer_radius - h.inner_radius) / h.inner_radius) *
              (2 * PI * ((j : ℚ) / (h.steps : ℚ)) * REVOLUTIONS)))
        ((h.outer_radius - h.inner_radius) *
            sinF (2 * PI * ((j : ℚ) / (h.steps : ℚ)) * REVOLUTIONS) -
          h.pen_offset *
            sinF (((h.outer_radius - h.inner_radius) / h.inner_radius) *
              (2 * PI * ((j : ℚ) / (h.steps : ℚ)) * REVOLUTIONS)))) := by
  have hθ : theta h j = 2 * PI * ((j : ℚ) / (h.steps : ℚ)) * REVOLUTIONS := by
    unfold theta
    rw [mul_div_assoc]
  simp [rawPoints, Nat.lt_succ_of_le hj, generate_point, hθ]

/-- Witness for C1 at a concrete spec, index 1 of 3, with constant-zero
trig oracles (both formula terms then vanish). -/
theorem claim_C1_witness :
    (rawPoints ⟨150, 52.5, 97.5, 3⟩ (fun _ => 0) (fun _ => 0))[1]? =
      some (Coordinate.mk 0 0) := by
  have hx := claim_C1_raw_point ⟨150, 52.5, 97.5, 3⟩ (fun _ => 0) (fun _ => 0) 1
    (by norm_num)
  simpa using hx

/-- C9.  Recentering is a pure translation: one offset vector serves every
index, each returned point is its raw point minus that offset, and hence
pairwise differences of returned points equal those of the raw points. -/
theorem claim_C9_translation (h : Hypotrochoid) (cosF sinF : ℚ → ℚ) :
    ∃ ox oy : ℚ,
      (∀ i : ℕ, (compute_points h cosF sinF)[i]? =
        ((rawPoints h cosF sinF)[i]?).map
          (fun p => Coordinate.mk (p.x - ox) (p.y - oy))) ∧
      (∀ i k : ℕ, ∀ p q p' q' : Coordinate,
        (rawPoints h cosF sinF)[i]? = some p →
        (rawPoints h cosF sinF)[k]? = some q →
        (compute_points h cosF sinF)[i]? = some p' →
        (compute_points h cosF sinF)[k]? = some q' →
        p'.x - q'.x = p.x - q.x ∧ p'.y - q'.y = p.y - q.y) := by
  refine ⟨offsetX h cosF sinF, offsetY h cosF sinF, ?_, ?_⟩
  · intro i
    simp [compute_points, List.getElem?_map]
  · intro i k p q p' q' hp hq hp' hq'
    have e1 : (compute_points h cosF sinF)[i]? =
        some (Coordinate.mk (p.x - offsetX h cosF sinF)
          (p.y - offsetY h cosF sinF)) := by
      simp [compute_points, List.getElem?_map, hp]
    have e2 : (compute_points h cosF sinF)[k]? =
        some (Coordinate.mk (q.x - offsetX h cosF sinF)
          (q.y - offsetY h cosF sinF)) := by
      simp [compute_points, List.getElem?_map, hq]
    rw [e1] at hp'
    rw [e2] at hq'
    obtain rfl := (Option.some_inj.mp hp')
    obtain rfl := (Option.some_inj.mp hq')
    constructor <;> ring

/-- Witness for C9 at a concrete spec. -/
theorem claim_C9_witness :
    ∃ ox oy : ℚ,
      (∀ i : ℕ,
        (compute_points ⟨150, 52.5, 97.5, 2⟩ (fun _ => 0) (fun _ => 0))[i]? =
        ((rawPoints ⟨150, 52.5, 97.5, 2⟩ (fun _ => 0) (fun _ => 0))[i]?).map
          (fun p => Coordinate.mk (p.x - ox) (p.y - oy))) ∧
      (∀ i k : ℕ, ∀ p q p' q' : Coordinate,
        (rawPoints ⟨150, 52.5, 97.5, 2⟩ (fun _ => 0) (fun _ => 0))[i]? = some p →
        (rawPoints ⟨150, 52.5, 97.5, 2⟩ (fun _ => 0) (fun _ => 0))[k]? = some q →
        (compute_points ⟨150, 52.5, 97.5, 2⟩ (fun _ => 0) (fun _ => 0))[i]? = some p' →
        (compute_points ⟨150, 52.5, 97.5, 2⟩ (fun _ => 0) (fun _ => 0))[k]? = some q' →
        p'.x - q'.x = p.x - q.x ∧ p'.y - q'.y = p.y - q.y) :=
  claim_C9_translation ⟨150, 52.5, 97.5, 2⟩ (fun _ => 0) (fun _ => 0)

/-- C4 counterexample: with `inner_radius = 0` (an invalid parameter), the
source `compute_points` neither panics nor returns a failure value — its
return type is a plain `Vec` and it contains no validation — so the model,
total by construction, returns a normal full-length sequence where the
claim demands an `InvalidParameter` error. -/
theorem claim_C4_counterexample :
    (compute_points ⟨150, 0, 97.5, 2⟩ (fun _ => 1) (fun _ => 0)).length = 2 + 1 := by
  simp [compute_points, rawPoints]

/-- C4 amended: `compute_points` performs no input validation at all; for
every spec — in particular when `inner_radius ≤ 0`, when
`outer_radius ≤ inner_radius`, or when `pen_offset` is negative — it
returns a normal sequence of `steps + 1` points and never signals an
error. -/
theorem claim_C4_no_validation (h : Hypotrochoid) (cosF sinF : ℚ → ℚ)
    (_hbad : h.inner_radius ≤ 0 ∨ h.outer_radius ≤ h.inner_radius ∨
      h.pen_offset < 0) :
    (compute_points h cosF sinF).length = h.steps + 1 := by
  simp [compute_points, rawPoints]

/-- Witness for the amended C4, at a spec with `outer_radius` equal to
`inner_radius`. -/
theorem claim_C4_witness :
    (compute_points ⟨100, 100, 50, 4⟩ (fun _ => 0) (fun _ => 0)).length = 4 + 1 :=
  claim_C4_no_validation ⟨100, 100, 50, 4⟩ (fun _ => 0) (fun _ => 0)
    (Or.inr (Or.inl (by norm_num)))

/-- C5, evaluated in the exact-arithmetic model: with `steps = 0` the loop
runs once and the single point recenters to the origin, because `ℚ`
division is total with `0 / 0 = 0` so `theta = 0`.  The Rust source
instead computes `theta = 2.0 * PI * 0.0 / 0.0 * 16.0 = NaN` in IEEE
`f64`, so the actual program returns the single point `(NaN, NaN)`, not
`(0, 0)`: the code diverges from the spec exactly at this division. -/
theorem claim_C5_steps_zero :
    compute_points ⟨150, 52.5, 97.5, 0⟩ (fun _ => 1) (fun _ => 0) =
      [Coordinate.mk 0 0] := by
  have hr1 : List.range 1 = [0] := rfl
  have hraw : rawPoints ⟨150, 52.5, 97.5, 0⟩ (fun _ => 1) (fun _ => 0) =
      [Coordinate.mk 195 0] := by
    norm_num [rawPoints, hr1, generate_point]
  have hox : offsetX ⟨150, 52.5, 97.5, 0⟩ (fun _ => 1) (fun _ => 0) = 195 := by
    rw [offsetX, hraw]
    simp only [List.map_cons, List.map_nil, foldMax, foldMin, List.foldl_cons,
      List.foldl_nil]
    rw [max_eq_right (by norm_num [F64_MIN] : F64_MIN ≤ (195 : ℚ)),
      min_eq_right (by norm_num [F64_MAX] : (195 : ℚ) ≤ F64_MAX)]
    norm_num
  have hoy : offsetY ⟨150, 52.5, 97.5, 0⟩ (fun _ => 1) (fun _ => 0) = 0 := by
    rw [offsetY, hraw]
    simp only [List.map_cons, List.map_nil, foldMax, foldMin, List.foldl_cons,
      List.foldl_nil]
    rw [max_eq_right (by norm_num [F64_MIN] : F64_MIN ≤ (0 : ℚ)),
      min_eq_right (by norm_num [F64_MAX] : (0 : ℚ) ≤ F64_MAX)]
    norm_num
  simp only [compute_points, hraw, hox, hoy]
  norm_num

/-- C6.  Concrete scenario `(150, 52.5, 97.5, 3000)` with any trig oracles
agreeing with cosine and sine at 0: exactly 3001 points; the first raw
point, from `theta = 0`, is `(r_diff + pen_offset, 0) = (195, 0)`; and the
first returned point is that raw point shifted by the bounding-box center
offset of the full 3001-point set. -/
theorem claim_C6_concrete (cosF sinF : ℚ → ℚ)
    (hc : cosF 0 = 1) (hs : sinF 0 = 0) :
    (compute_points ⟨150, 52.5, 97.5, 3000⟩ cosF sinF).length = 3001 ∧
    (rawPoints ⟨150, 52.5, 97.5, 3000⟩ cosF sinF)[0]? =
      some (Coordinate.mk 195 0) ∧
    (compute_points ⟨150, 52.5, 97.5, 3000⟩ cosF sinF)[0]? =
      some (Coordinate.mk
        (195 - offsetX ⟨150, 52.5, 97.5, 3000⟩ cosF sinF)
        (0 - offsetY ⟨150, 52.5, 97.5, 3000⟩ cosF sinF)) := by
  have hθ : theta ⟨150, 52.5, 97.5, 3000⟩ 0 = 0 := by
    simp [theta]
  have hraw : (rawPoints ⟨150, 52.5, 97.5, 3000⟩ cosF sinF)[0]? =
      some (Coordinate.mk 195 0) := by
    simp [rawPoints, generate_point, hθ, hc, hs]
    norm_num
  refine ⟨by simp [compute_points, rawPoints], hraw, ?_⟩
  simp [compute_points, List.getElem?_map, hraw]

/-- Witness for C6 with constant trig oracles matching cos 0 and sin 0. -/
theorem claim_C6_witness :
    (compute_points ⟨150, 52.5, 97.5, 3000⟩ (fun _ => 1) (fun _ => 0)).length
        = 3001 ∧
    (rawPoints ⟨150, 52.5, 97.5, 3000⟩ (fun _ => 1) (fun _ => 0))[0]? =
      some (Coordinate.mk 195 0) ∧
    (compute_points ⟨150, 52.5, 97.5, 3000⟩ (fun _ => 1) (fun _ => 0))[0]? =
      some (Coordinate.mk
        (195 - offsetX ⟨150, 52.5, 97.5, 3000⟩ (fun _ => 1) (fun _ => 0))
        (0 - offsetY ⟨150, 52.5, 97.5, 3000⟩ (fun _ => 1) (fun _ => 0))) :=
  claim_C6_concrete (fun _ => 1) (fun _ => 0) rfl rfl

/-- Witness for C8 at a concrete spec. -/
theorem claim_C8_witness :
    compute_points ⟨150, 52.5, 97.5, 3⟩ (fun _ => 0) (fun _ => 0) =
      compute_points ⟨150, 52.5, 97.5, 3⟩ (fun _ => 0) (fun _ => 0) :=
  claim_C8_determinism ⟨150, 52.5, 97.5, 3⟩ ⟨150, 52.5, 97.5, 3⟩
    (fun _ => 0) (fun _ => 0) rfl rfl rfl rfl
